import Mathlib

/-!
Verification of the brewing-batch analysis program
(src/analyze_brewing_data.py) against its specification.

The Python program is shallowly embedded: batch records become Lean
structures with `Option` fields (a `none` field models a key that is
absent from the JSON object), Python dicts / `Counter` / `defaultdict`
become insertion-ordered association lists, Python floats become exact
rationals (`Rat`), and the stable ascending `list.sort` becomes a stable
insertion sort (any two stable sorts of the same key agree extensionally,
so this is the same function as Python's Timsort on the embedded data).
Per-record exceptions inside `analyze_batches` are modelled by an explicit
error outcome carried next to the state.
-/

/-! ### Association-list model of Python dict / Counter / defaultdict -/

/-- Update the entry for key `k` in an insertion-ordered association list,
starting from default `d` when the key is absent (a fresh key is appended
at the end, exactly as a fresh key is appended in a Python dict). This is
the shared shape of `Counter[k] += 1` and `defaultdict(float)[k] += v`. -/
def bumpEntry {κ α : Type} [DecidableEq κ] (upd : α → α) (d : α) (k : κ) :
    List (κ × α) → List (κ × α)
  | [] => [(k, upd d)]
  | p :: ps => if p.1 = k then (p.1, upd p.2) :: ps else p :: bumpEntry upd d k ps

/-- `Counter()[k] += 1`. -/
def incKey {κ : Type} [DecidableEq κ] (c : List (κ × Nat)) (k : κ) : List (κ × Nat) :=
  bumpEntry (fun n => n + 1) 0 k c

/-- `defaultdict(float)[k] += v`. -/
def addTotal {κ : Type} [DecidableEq κ] (t : List (κ × Rat)) (k : κ) (v : Rat) :
    List (κ × Rat) :=
  bumpEntry (fun x => x + v) 0 k t

/-- The key list of an association list (a Python dict's keys, in order). -/
def keysOf {κ α : Type} (l : List (κ × α)) : List κ :=
  l.map Prod.fst

/-- `d[k] = v` on a Python dict: overwrite in place if the key is present
(keeping its position), append otherwise. -/
def dictInsert {κ α : Type} [DecidableEq κ] (k : κ) (v : α) :
    List (κ × α) → List (κ × α)
  | [] => [(k, v)]
  | p :: ps => if p.1 = k then (k, v) :: ps else p :: dictInsert k v ps

/-- Lookup in a `defaultdict(float)`: 0 for an absent key. -/
def lookupTotal {κ : Type} [DecidableEq κ] [BEq κ] (t : List (κ × Rat)) (k : κ) : Rat :=
  match List.lookup k t with
  | some v => v
  | none => 0

/-! ### Stable sort (Python `list.sort` / `sorted` are stable) -/

/-- Insert `e` in front of the first element `x` with `¬ lt x e`; together
with `isortBy` this is a stable ascending insertion sort for the strict
comparison `lt`. -/
def insertLt {α : Type} (lt : α → α → Bool) (e : α) : List α → List α
  | [] => [e]
  | x :: xs => if lt x e then x :: insertLt lt e xs else e :: x :: xs

/-- Stable ascending sort by the strict comparison `lt`; extensionally the
function computed by Python's stable `sort` with the corresponding key. -/
def isortBy {α : Type} (lt : α → α → Bool) : List α → List α
  | [] => []
  | x :: xs => insertLt lt x (isortBy lt xs)

/-! ### Calendar conversion (`datetime.fromtimestamp` / `strftime` / `strptime`)

The timestamp is interpreted in UTC; the civil-from-days and days-from-civil
conversions are the standard Gregorian calendar algorithms. -/

/-- Day number (days since the Unix epoch) of a millisecond timestamp. -/
def dayOfMillis (ms : Int) : Int :=
  Int.fdiv ms 86400000

/-- Gregorian (year, month, day) of a day number since the Unix epoch. -/
def civilFromDays (z0 : Int) : Int × Int × Int :=
  let z := z0 + 719468
  let era := Int.fdiv z 146097
  let doe := z - era * 146097
  let yoe := Int.fdiv (doe - Int.fdiv doe 1460 + Int.fdiv doe 36524 - Int.fdiv doe 146096) 365
  let y := yoe + era * 400
  let doy := doe - (365 * yoe + Int.fdiv yoe 4 - Int.fdiv yoe 100)
  let mp := Int.fdiv (5 * doy + 2) 153
  let d := doy - Int.fdiv (153 * mp + 2) 5 + 1
  let m := if mp < 10 then mp + 3 else mp - 9
  (if m ≤ 2 then y + 1 else y, m, d)

/-- Day number since the Unix epoch of a Gregorian (year, month, day). -/
def daysFromCivil (y0 m d : Int) : Int :=
  let y := if m ≤ 2 then y0 - 1 else y0
  let era := Int.fdiv y 400
  let yoe := y - era * 400
  let mp := if m > 2 then m - 3 else m + 9
  let doy := Int.fdiv (153 * mp + 2) 5 + d - 1
  let doe := yoe * 365 + Int.fdiv yoe 4 - Int.fdiv yoe 100 + doy
  era * 146097 + doe - 719468

/-- Left-pad the decimal rendering of a nonnegative integer with zeros. -/
def padNum (width : Nat) (n : Int) : String :=
  let s := toString n
  if s.length < width then String.mk (List.replicate (width - s.length) '0') ++ s else s

/-- `strftime('%Y-%m-%d')` of the day of a millisecond timestamp. -/
def dateString (ms : Int) : String :=
  let c := civilFromDays (dayOfMillis ms)
  padNum 4 c.1 ++ "-" ++ padNum 2 c.2.1 ++ "-" ++ padNum 2 c.2.2

/-- `strftime('%Y-%m')` of the day of a millisecond timestamp. -/
def monthString (ms : Int) : String :=
  let c := civilFromDays (dayOfMillis ms)
  padNum 4 c.1 ++ "-" ++ padNum 2 c.2.1

/-- `dt.year` of the day of a millisecond timestamp. -/
def yearOfMillis (ms : Int) : Int :=
  (civilFromDays (dayOfMillis ms)).1

/-- `datetime.strptime(s, '%Y-%m-%d')`, as the day number since the epoch.
Timeline date strings are always produced by `dateString`, so the fallback
branch is unreachable on the program's own data. -/
def strptimeDays (s : String) : Int :=
  match String.splitOn s ("-") with
  | [ys, ms, ds] =>
      daysFromCivil (Int.ofNat (ys.toNat?.getD 0)) (Int.ofNat (ms.toNat?.getD 0))
        (Int.ofNat (ds.toNat?.getD 0))
  | _ => 0

/-! ### Python numeric helpers: `min`, `max`, `sum`, `/ len`, format -/

/-- Python `min(l)` on a list of numbers (the program only calls it on
non-empty lists; the `[]` value is irrelevant). -/
def listMin : List Rat → Rat
  | [] => 0
  | x :: xs => xs.foldl min x

/-- Python `max(l)` on a list of numbers. -/
def listMax : List Rat → Rat
  | [] => 0
  | x :: xs => xs.foldl max x

/-- `sum(l) / len(l)`, the arithmetic mean. -/
def avgList (l : List Rat) : Rat :=
  l.sum / (l.length : Rat)

/-- Fixed-point decimal rendering with `prec` digits (Python `:.Nf`; the
half-up tie rule abstracts the binary float's round-half-even — no claim
depends on the rounding of a tie). -/
def formatFixed (prec : Nat) (q : Rat) : String :=
  let n := Rat.floor (q * ((10 : Rat) ^ prec) + 1 / 2)
  let sign := if n < 0 then "-" else ""
  let m := n.natAbs
  let base := (10 : Nat) ^ prec
  if prec = 0 then sign ++ toString (m / base) else
    sign ++ toString (m / base) ++ "." ++ padNum prec (Int.ofNat (m % base))

/-! ### Data model of a batch record (JSON objects with optional keys)

A `none`-valued field models a key absent from the JSON object. Numeric
JSON values are embedded as `Rat`. -/

/-- `recipe['style']`. A `none` style stands for the key being absent or the
style object being the falsy `{}`: both are treated identically by the
program (no style counter bump; timeline style defaults to "Unknown"). -/
structure StyleObj where
  name : Option String

/-- One entry of `recipe['fermentables']`. -/
structure Fermentable where
  name : Option String
  amount : Option Rat

/-- One entry of `recipe['hops']`. -/
structure HopEntry where
  name : Option String
  amount : Option Rat

/-- One entry of `recipe['yeasts']`. -/
structure YeastEntry where
  name : Option String
  laboratory : Option String
  productId : Option String

/-- One entry of `recipe['fermentation']['steps']`. -/
structure FermStep where
  stepTemp : Option Rat

/-- `recipe['fermentation']`. -/
structure FermentationObj where
  steps : Option (List FermStep)

/-- `recipe['equipment']`. -/
structure EquipmentObj where
  boilTime : Option Rat

/-- The embedded recipe object of a batch record. -/
structure Recipe where
  style : Option StyleObj
  abv : Option Rat
  ibu : Option Rat
  og : Option Rat
  fg : Option Rat
  estimatedColor : Option Rat
  batchSize : Option Rat
  efficiency : Option Rat
  equipment : Option EquipmentObj
  fermentables : Option (List Fermentable)
  hops : Option (List HopEntry)
  yeasts : Option (List YeastEntry)
  fermentation : Option FermentationObj

/-- `batch.get('recipe', {})` with its failure mode: `absent` is a missing
key (the program substitutes `{}`), and `malformed msg` is a nested value
that raises `msg` at its first use inside the per-record `try` block. -/
inductive RecipeField where
  | absent : RecipeField
  | present : Recipe → RecipeField
  | malformed : String → RecipeField

/-- A batch record. The program reads `abv`, `og`, `fg` and `efficiency`
from the batch object itself (not from the recipe). -/
structure Batch where
  batchId : Option String
  name : Option String
  brewer : Option String
  brewDate : Option Int
  status : Option String
  batchNo : Option Int
  recipe : RecipeField
  abv : Option Rat
  og : Option Rat
  fg : Option Rat
  efficiency : Option Rat

/-- The recipe `{}`: every key absent. -/
def emptyRecipe : Recipe :=
  ⟨none, none, none, none, none, none, none, none, none, none, none, none, none⟩

/-- One entry of `stats['batch_timeline']`. -/
structure TimelineEntry where
  date : String
  name : String
  style : String
  batch_id : String
  brew_number : Int
  brewer : String
  status : String
  abv : Rat
  og : Rat
  fg : Rat
  ibu : Rat
deriving Inhabited

/-- The `stats` dict of `analyze_batches`: accumulators in declaration
order, then the derived scalars, which are absent (`none`) until the
post-pass computation assigns them. -/
structure Stats where
  total_batches : Nat
  styles : List (String × Nat)
  grains : List (String × Nat)
  hops : List (String × Nat)
  yeasts : List (String × Nat)
  abv_distribution : List Rat
  ibu_distribution : List Rat
  og_distribution : List Rat
  fg_distribution : List Rat
  batch_timeline : List TimelineEntry
  brewers : List (String × Nat)
  batch_sizes : List Rat
  boil_times : List Rat
  fermentation_temps : List Rat
  grain_totals : List (String × Rat)
  hop_totals : List (String × Rat)
  yearly_brews : List (Int × Nat)
  monthly_brews : List (String × Nat)
  color_srm : List Rat
  efficiency : List Rat
  avg_abv : Option Rat
  min_abv : Option Rat
  max_abv : Option Rat
  avg_ibu : Option Rat
  min_ibu : Option Rat
  max_ibu : Option Rat
  avg_batch_size : Option Rat
  avg_efficiency : Option Rat
  avg_color : Option Rat
  total_volume : Option Rat
  years_brewing : Option Rat

/-- The initial `stats` dict: `total_batches` is `len(batches)`, every
accumulator empty, no derived scalar present. -/
def initStats (batches : List Batch) : Stats :=
  ⟨batches.length, [], [], [], [], [], [], [], [], [], [], [], [], [], [], [],
    [], [], [], [], none, none, none, none, none, none, none, none, none, none, none⟩

/-- The keys of the `stats` dict as initialized at the top of
`analyze_batches` (source lines 20-41), in order. -/
def statsFieldNames : List String :=
  ["total_batches", "styles", "grains", "hops", "yeasts", "abv_distribution",
   "ibu_distribution", "og_distribution", "fg_distribution", "batch_timeline",
   "brewers", "batch_sizes", "boil_times", "fermentation_temps", "grain_totals",
   "hop_totals", "yearly_brews", "monthly_brews", "color_srm", "efficiency"]

/-! ### The aggregation pass (`analyze_batches`, source lines 43-140)

Each numbered block of the per-record loop body becomes one rule function,
applied in source order. -/

/-- Source line 52: `stats['brewers'][brewer] += 1` with
`brewer = batch.get('brewer', 'Unknown')`. -/
def ruleBrewer (b : Batch) (s : Stats) : Stats :=
  { s with brewers := incKey s.brewers (b.brewer.getD ("Unknown")) }

/-- The timeline entry built at source lines 57-69. -/
def mkTimelineEntry (b : Batch) (r : Recipe) (ts : Int) : TimelineEntry :=
  { date := dateString ts
    name := b.name.getD ("Unknown")
    style := ((r.style.getD ⟨none⟩).name).getD ("Unknown")
    batch_id := b.batchId.getD ("")
    brew_number := b.batchNo.getD 0
    brewer := b.brewer.getD ("Unknown")
    status := b.status.getD ("Unknown")
    abv := r.abv.getD 0
    og := r.og.getD 0
    fg := r.fg.getD 0
    ibu := r.ibu.getD 0 }

/-- Source lines 55-71: if a brew date is present, append a timeline entry
and bump the yearly and monthly counters. -/
def ruleTimeline (b : Batch) (r : Recipe) (s : Stats) : Stats :=
  match b.brewDate with
  | none => s
  | some ts =>
      { s with
        batch_timeline := s.batch_timeline ++ [mkTimelineEntry b r ts]
        yearly_brews := incKey s.yearly_brews (yearOfMillis ts)
        monthly_brews := incKey s.monthly_brews (monthString ts) }

/-- Source lines 74-77: `if style:` bump the style counter (a present but
name-less style counts as "Unknown"). -/
def ruleStyle (r : Recipe) (s : Stats) : Stats :=
  match r.style with
  | none => s
  | some st => { s with styles := incKey s.styles (st.name.getD ("Unknown")) }

/-- Source lines 80-81: `if 'abv' in batch` — read from the batch object. -/
def ruleABV (b : Batch) (s : Stats) : Stats :=
  match b.abv with
  | none => s
  | some v => { s with abv_distribution := s.abv_distribution ++ [v] }

/-- Source lines 82-83: `if 'ibu' in recipe` — read from the recipe. -/
def ruleIBU (r : Recipe) (s : Stats) : Stats :=
  match r.ibu with
  | none => s
  | some v => { s with ibu_distribution := s.ibu_distribution ++ [v] }

/-- Source lines 84-85: `if 'og' in batch`. -/
def ruleOG (b : Batch) (s : Stats) : Stats :=
  match b.og with
  | none => s
  | some v => { s with og_distribution := s.og_distribution ++ [v] }

/-- Source lines 86-87: `if 'fg' in batch`. -/
def ruleFG (b : Batch) (s : Stats) : Stats :=
  match b.fg with
  | none => s
  | some v => { s with fg_distribution := s.fg_distribution ++ [v] }

/-- Source lines 88-89: `if 'estimatedColor' in recipe`. -/
def ruleColor (r : Recipe) (s : Stats) : Stats :=
  match r.estimatedColor with
  | none => s
  | some v => { s with color_srm := s.color_srm ++ [v] }

/-- Source lines 90-91: `if 'efficiency' in batch`. -/
def ruleEfficiency (b : Batch) (s : Stats) : Stats :=
  match b.efficiency with
  | none => s
  | some v => { s with efficiency := s.efficiency ++ [v] }

/-- Source lines 94-95: `if 'batchSize' in recipe`. -/
def ruleBatchSize (r : Recipe) (s : Stats) : Stats :=
  match r.batchSize with
  | none => s
  | some v => { s with batch_sizes := s.batch_sizes ++ [v] }

/-- Source lines 98-100: `if 'boilTime' in recipe.get('equipment', {})`. -/
def ruleBoilTime (r : Recipe) (s : Stats) : Stats :=
  match (r.equipment.getD ⟨none⟩).boilTime with
  | none => s
  | some v => { s with boil_times := s.boil_times ++ [v] }

/-- Source lines 103-110: per fermentable, bump the grain counter and add
the amount (default 0) to the grain total, under the same name. -/
def ruleFermentables (r : Recipe) (s : Stats) : Stats :=
  (r.fermentables.getD []).foldl
    (fun s f =>
      { s with
        grains := incKey s.grains (f.name.getD ("Unknown"))
        grain_totals := addTotal s.grain_totals (f.name.getD ("Unknown")) (f.amount.getD 0) })
    s

/-- Source lines 113-119: per hop, bump the hop counter and total. -/
def ruleHops (r : Recipe) (s : Stats) : Stats :=
  (r.hops.getD []).foldl
    (fun s h =>
      { s with
        hops := incKey s.hops (h.name.getD ("Unknown"))
        hop_totals := addTotal s.hop_totals (h.name.getD ("Unknown")) (h.amount.getD 0) })
    s

/-- The yeast display identity of source line 127:
`f"{lab} {product_id} - {name}" if lab else name`. -/
def yeastFull (y : YeastEntry) : String :=
  let lab := y.laboratory.getD ("")
  let pid := y.productId.getD ("")
  let nm := y.name.getD ("Unknown")
  if lab ≠ "" then lab ++ " " ++ pid ++ " - " ++ nm else nm

/-- Source lines 122-129: per yeast, bump the yeast counter. -/
def ruleYeasts (r : Recipe) (s : Stats) : Stats :=
  (r.yeasts.getD []).foldl (fun s y => { s with yeasts := incKey s.yeasts (yeastFull y) }) s

/-- Source lines 131-136: if the fermentation profile has a first step and
its `stepTemp` is truthy (present and nonzero), append it. -/
def ruleFermTemp (r : Recipe) (s : Stats) : Stats :=
  match (r.fermentation.getD ⟨none⟩).steps with
  | some (st :: _) =>
      match st.stepTemp with
      | some t =>
          if t ≠ 0 then { s with fermentation_temps := s.fermentation_temps ++ [t] } else s
      | none => s
  | _ => s

/-- The loop body after the recipe object is in hand (source lines 54-136),
rules in source order. -/
def processRecipe (b : Batch) (r : Recipe) (s : Stats) : Stats :=
  ruleFermTemp r (ruleYeasts r (ruleHops r (ruleFermentables r (ruleBoilTime r
    (ruleBatchSize r (ruleEfficiency b (ruleColor r (ruleFG b (ruleOG b
      (ruleIBU r (ruleABV b (ruleStyle r (ruleTimeline b r s)))))))))))))

/-- One iteration of the per-record loop: the brewer counter is bumped
first (line 52); a malformed recipe raises at its first use, which the
`except` at lines 138-140 catches, so for such a record only the brewer
bump survives (no rollback). The first recipe use is inside the timeline
block (line 60) or the style block (line 74), both before any other
mutation, so hoisting the raise to just after the brewer bump yields the
identical state. -/
def stepStats (s : Stats) (b : Batch) : Stats :=
  let s1 := ruleBrewer b s
  match b.recipe with
  | RecipeField.malformed _ => s1
  | RecipeField.absent => processRecipe b emptyRecipe s1
  | RecipeField.present r => processRecipe b r s1

/-- The diagnostic printed by the `except` handler (line 139) for a record
whose processing raises, if any. -/
def errOf (b : Batch) : Option String :=
  match b.recipe with
  | RecipeField.malformed m =>
      some ("Error processing batch " ++ b.name.getD ("Unknown") ++ ": " ++ m)
  | _ => none

/-- The whole per-record loop: fold every record into the stats, collecting
the diagnostics emitted for records that raised. -/
def aggregatePass (batches : List Batch) : Stats × List String :=
  batches.foldl (fun acc b => (stepStats acc.1 b, acc.2 ++ (errOf b).toList))
    (initStats batches, [])

/-- Source line 143: `stats['batch_timeline'].sort(key=lambda x: x['date'])`
— stable ascending sort by the date string. -/
def sortTimeline (tl : List TimelineEntry) : List TimelineEntry :=
  isortBy (fun a b => decide (a.date < b.date)) tl

/-- Source lines 146-177: the derived scalars, each conditioned on its
source distribution being non-empty; `total_volume` and `years_brewing`
get a 0 in the else branch. The source assigns the keys one block after
another; every block only reads distribution/timeline fields, which no
block writes, so the sequential assignments are this one simultaneous
update (an absent key stays absent: the else branch keeps the old value). -/
def finalizeDerived (s : Stats) : Stats :=
  let tv : Rat := if s.batch_sizes ≠ [] then s.batch_sizes.sum else 0
  let lastDays : Int := strptimeDays ((s.batch_timeline.getLast?.getD default).date)
  let firstDays : Int := strptimeDays ((s.batch_timeline.head?.getD default).date)
  let yb : Rat :=
    if 2 ≤ s.batch_timeline.length then ((lastDays - firstDays : Int) : Rat) / (365.25 : Rat)
    else 0
  { s with
    avg_abv := if s.abv_distribution ≠ [] then some (avgList s.abv_distribution) else s.avg_abv
    min_abv := if s.abv_distribution ≠ [] then some (listMin s.abv_distribution) else s.min_abv
    max_abv := if s.abv_distribution ≠ [] then some (listMax s.abv_distribution) else s.max_abv
    avg_ibu := if s.ibu_distribution ≠ [] then some (avgList s.ibu_distribution) else s.avg_ibu
    min_ibu := if s.ibu_distribution ≠ [] then some (listMin s.ibu_distribution) else s.min_ibu
    max_ibu := if s.ibu_distribution ≠ [] then some (listMax s.ibu_distribution) else s.max_ibu
    avg_batch_size :=
      if s.batch_sizes ≠ [] then some (avgList s.batch_sizes) else s.avg_batch_size
    avg_efficiency :=
      if s.efficiency ≠ [] then some (avgList s.efficiency) else s.avg_efficiency
    avg_color := if s.color_srm ≠ [] then some (avgList s.color_srm) else s.avg_color
    total_volume := some tv
    years_brewing := some yb }

/-- `analyze_batches` (source lines 17-179): the pass, the timeline sort,
then the derived scalars. -/
def analyze_batches (batches : List Batch) : Stats :=
  let s := (aggregatePass batches).1
  let s := { s with batch_timeline := sortTimeline s.batch_timeline }
  finalizeDerived s

/-- The diagnostics printed while running `analyze_batches`. -/
def analyzeLog (batches : List Batch) : List String :=
  (aggregatePass batches).2

/-! ### Report renderer (`generate_markdown_report`, source lines 181-265) -/

/-- `Counter.most_common()`: items sorted by count descending; the sort is
stable, so equal counts keep insertion order. -/
def mostCommon {κ : Type} (c : List (κ × Nat)) : List (κ × Nat) :=
  isortBy (fun a b => decide (b.2 < a.2)) c

/-- The report's sections, in the fixed order the renderer emits them. -/
inductive ReportSec where
  | overview : ReportSec
  | brewersSec : ReportSec
  | yearlySec : ReportSec
  | beerStatsHeader : ReportSec
  | abvSec : ReportSec
  | ibuSec : ReportSec
  | batchSizeSec : ReportSec
  | efficiencySec : ReportSec
  | colorSec : ReportSec
  | stylesSec : ReportSec
  | grainsSec : ReportSec
  | hopsSec : ReportSec
  | yeastsSec : ReportSec
  | historySec : ReportSec
deriving DecidableEq

/-- Which sections the renderer emits, in order: the title/overview, the
brewers block (line 189, unconditional), the yearly timeline (guarded, line
195), the beer-statistics header (line 203, unconditional), the five
per-metric blocks (each guarded by its average key, lines 205-225), the
styles block (line 228, unconditional), then grains, hops, yeasts and
history, each guarded by non-emptiness (lines 234, 243, 252, 259). -/
def reportPlan (stats : Stats) : List ReportSec :=
  [ReportSec.overview, ReportSec.brewersSec]
    ++ (if stats.yearly_brews ≠ [] then [ReportSec.yearlySec] else [])
    ++ [ReportSec.beerStatsHeader]
    ++ (if stats.avg_abv.isSome then [ReportSec.abvSec] else [])
    ++ (if stats.avg_ibu.isSome then [ReportSec.ibuSec] else [])
    ++ (if stats.avg_batch_size.isSome then [ReportSec.batchSizeSec] else [])
    ++ (if stats.avg_efficiency.isSome then [ReportSec.efficiencySec] else [])
    ++ (if stats.avg_color.isSome then [ReportSec.colorSec] else [])
    ++ [ReportSec.stylesSec]
    ++ (if stats.grains ≠ [] then [ReportSec.grainsSec] else [])
    ++ (if stats.hops ≠ [] then [ReportSec.hopsSec] else [])
    ++ (if stats.yeasts ≠ [] then [ReportSec.yeastsSec] else [])
    ++ (if stats.batch_timeline.isEmpty = false then [ReportSec.historySec] else [])

/-- The markdown text of one section, exactly as the source builds it. -/
def sectionText (stats : Stats) : ReportSec → String
  | ReportSec.overview =>
      "# 🍺 Sklopivo Brewing Statistics\n\n" ++ "## Overview\n\n"
        ++ "**Total Batches Brewed:** " ++ toString stats.total_batches ++ "\n\n"
  | ReportSec.brewersSec =>
      "### 👨‍🍳 Brewers\n\n"
        ++ String.join ((mostCommon stats.brewers).map
          (fun p => "- **" ++ p.1 ++ "**: " ++ toString p.2 ++ " batches\n"))
        ++ "\n"
  | ReportSec.yearlySec =>
      "### 📅 Brewing Timeline\n\n" ++ "#### Brews by Year\n\n"
        ++ String.join ((isortBy (fun a b => decide (a.1 < b.1)) stats.yearly_brews).map
          (fun p => "- **" ++ toString p.1 ++ "**: " ++ toString p.2 ++ " batches\n"))
        ++ "\n"
  | ReportSec.beerStatsHeader => "## 🍻 Beer Statistics\n\n"
  | ReportSec.abvSec =>
      "### Alcohol Content (ABV)\n\n"
        ++ "- **Average ABV**: " ++ formatFixed 2 (stats.avg_abv.getD 0) ++ "%\n"
        ++ "- **Range**: " ++ formatFixed 2 (stats.min_abv.getD 0) ++ "% - "
        ++ formatFixed 2 (stats.max_abv.getD 0) ++ "%\n\n"
  | ReportSec.ibuSec =>
      "### Bitterness (IBU)\n\n"
        ++ "- **Average IBU**: " ++ formatFixed 1 (stats.avg_ibu.getD 0) ++ "\n"
        ++ "- **Range**: " ++ formatFixed 1 (stats.min_ibu.getD 0) ++ " - "
        ++ formatFixed 1 (stats.max_ibu.getD 0) ++ "\n\n"
  | ReportSec.batchSizeSec =>
      "### Batch Size\n\n"
        ++ "- **Average**: " ++ formatFixed 1 (stats.avg_batch_size.getD 0) ++ " liters\n\n"
  | ReportSec.efficiencySec =>
      "### Brewing Efficiency\n\n"
        ++ "- **Average Efficiency**: " ++ formatFixed 1 (stats.avg_efficiency.getD 0) ++ "%\n\n"
  | ReportSec.colorSec =>
      "### Beer Color\n\n"
        ++ "- **Average SRM**: " ++ formatFixed 1 (stats.avg_color.getD 0) ++ "\n\n"
  | ReportSec.stylesSec =>
      "## 🎨 Beer Styles\n\n"
        ++ String.join ((mostCommon stats.styles).map
          (fun p => "- **" ++ p.1 ++ "**: " ++ toString p.2 ++ " batches\n"))
        ++ "\n"
  | ReportSec.grainsSec =>
      "## 🌾 Grains & Fermentables\n\n" ++ "### Most Used Grains\n\n"
        ++ String.join (((mostCommon stats.grains).take 15).map
          (fun p => "- **" ++ p.1 ++ "**: " ++ toString p.2 ++ " times ("
            ++ formatFixed 2 (lookupTotal stats.grain_totals p.1) ++ " kg total)\n"))
        ++ "\n"
  | ReportSec.hopsSec =>
      "## 🌿 Hops\n\n" ++ "### Most Used Hops\n\n"
        ++ String.join (((mostCommon stats.hops).take 15).map
          (fun p => "- **" ++ p.1 ++ "**: " ++ toString p.2 ++ " times ("
            ++ formatFixed 1 (lookupTotal stats.hop_totals p.1 * 1000) ++ " g total)\n"))
        ++ "\n"
  | ReportSec.yeastsSec =>
      "## 🧫 Yeasts\n\n"
        ++ String.join ((mostCommon stats.yeasts).map
          (fun p => "- **" ++ p.1 ++ "**: " ++ toString p.2 ++ " times\n"))
        ++ "\n"
  | ReportSec.historySec =>
      "## 📆 Brewing History\n\n"
        ++ String.join (stats.batch_timeline.map
          (fun e => "- **" ++ e.date ++ "**: " ++ e.name ++ " (" ++ e.style ++ ")\n"))
        ++ "\n"

/-- `generate_markdown_report` (source lines 181-265): the concatenation of
the emitted sections in order. -/
def generate_markdown_report (stats : Stats) : String :=
  String.join ((reportPlan stats).map (sectionText stats))

/-- Substring test (used only to state properties of the report text). -/
def strContainsSub (s pat : String) : Bool :=
  (s.toList.tails).any (fun t => pat.toList.isPrefixOf t)

/-! ### Export serializer (`main`, source lines 278-304) -/

/-- A value of the exported JSON document. -/
inductive JVal where
  | jnat : Nat → JVal
  | jnum : Rat → JVal
  | jcounter : List (String × Nat) → JVal
  | jcounterI : List (Int × Nat) → JVal
  | jtotals : List (String × Rat) → JVal
  | jtimeline : List TimelineEntry → JVal
  | jbatches : List (String × Batch) → JVal

/-- The dict comprehension of source line 278, from a given accumulator:
`{batch['_id']: batch for batch in batches}` — raises `KeyError` at the
first record without an `_id` key, otherwise inserts in order with
last-write-wins. -/
def buildDetailedFrom (acc : List (String × Batch)) :
    List Batch → Except String (List (String × Batch))
  | [] => Except.ok acc
  | b :: bs =>
      match b.batchId with
      | some i => buildDetailedFrom (dictInsert i b acc) bs
      | none => Except.error ("KeyError: _id")

/-- Source line 278 as run by `main`. -/
def buildDetailed (batches : List Batch) : Except String (List (String × Batch)) :=
  buildDetailedFrom [] batches

/-- The `stats_json` dict literal of source lines 280-304, given the
already-built detailed-batches mapping. -/
def exportDocOf (stats : Stats) (detailed : List (String × Batch)) :
    List (String × JVal) :=
  [("total_batches", JVal.jnat stats.total_batches),
   ("styles", JVal.jcounter stats.styles),
   ("grains", JVal.jcounter stats.grains),
   ("hops", JVal.jcounter stats.hops),
   ("yeasts", JVal.jcounter stats.yeasts),
   ("brewers", JVal.jcounter stats.brewers),
   ("yearly_brews", JVal.jcounterI stats.yearly_brews),
   ("monthly_brews", JVal.jcounter stats.monthly_brews),
   ("batch_timeline", JVal.jtimeline stats.batch_timeline),
   ("grain_totals", JVal.jtotals stats.grain_totals),
   ("hop_totals", JVal.jtotals stats.hop_totals),
   ("avg_abv", JVal.jnum (stats.avg_abv.getD 0)),
   ("min_abv", JVal.jnum (stats.min_abv.getD 0)),
   ("max_abv", JVal.jnum (stats.max_abv.getD 0)),
   ("avg_ibu", JVal.jnum (stats.avg_ibu.getD 0)),
   ("min_ibu", JVal.jnum (stats.min_ibu.getD 0)),
   ("max_ibu", JVal.jnum (stats.max_ibu.getD 0)),
   ("avg_batch_size", JVal.jnum (stats.avg_batch_size.getD 0)),
   ("avg_efficiency", JVal.jnum (stats.avg_efficiency.getD 0)),
   ("avg_color", JVal.jnum (stats.avg_color.getD 0)),
   ("total_volume", JVal.jnum (stats.total_volume.getD 0)),
   ("years_brewing", JVal.jnum (stats.years_brewing.getD 0)),
   ("detailed_batches", JVal.jbatches detailed)]

/-- Building `stats_json` (source lines 278-304): the detailed-batches
comprehension runs first and its `KeyError` aborts the run before any
document exists. -/
def stats_json (stats : Stats) (batches : List Batch) :
    Except String (List (String × JVal)) :=
  match buildDetailed batches with
  | Except.error e => Except.error e
  | Except.ok detailed => Except.ok (exportDocOf stats detailed)

/-- The export document `main` writes for a given input (source lines
267-307 up to the `json.dump`): analyze, then serialize. -/
def main_export (batches : List Batch) : Except String (List (String × JVal)) :=
  stats_json (analyze_batches batches) batches

/-- The key list of the export document, as the amended C2 names it. -/
def exportKeys : List String :=
  ["total_batches", "styles", "grains", "hops", "yeasts", "brewers",
   "yearly_brews", "monthly_brews", "batch_timeline", "grain_totals",
   "hop_totals", "avg_abv", "min_abv", "max_abv", "avg_ibu", "min_ibu",
   "max_ibu", "avg_batch_size", "avg_efficiency", "avg_color",
   "total_volume", "years_brewing", "detailed_batches"]

/-! ### Lemmas: key sets of counters and totals move in lock-step -/

/-- Bumping key `k` extends the key list with `k` exactly when `k` is
fresh, independently of the value operation. -/
theorem keysOf_bumpEntry {κ α : Type} [DecidableEq κ] (upd : α → α) (d : α) (k : κ)
    (l : List (κ × α)) :
    keysOf (bumpEntry upd d k l) =
      if k ∈ keysOf l then keysOf l else keysOf l ++ [k] := by
  induction l with
  | nil => simp [bumpEntry, keysOf]
  | cons p ps ih =>
      by_cases h : p.1 = k
      · subst h
        simp [bumpEntry, keysOf]
      · have hne : k ≠ p.1 := fun he => h he.symm
        simp only [bumpEntry, if_neg h, keysOf, List.map_cons] at ih ⊢
        rw [ih]
        by_cases hm : k ∈ List.map Prod.fst ps
        · simp [hm, hne]
        · simp [hm, hne]

theorem keysOf_incKey {κ : Type} [DecidableEq κ] (c : List (κ × Nat)) (k : κ) :
    keysOf (incKey c k) = if k ∈ keysOf c then keysOf c else keysOf c ++ [k] :=
  keysOf_bumpEntry _ _ _ _

theorem keysOf_addTotal {κ : Type} [DecidableEq κ] (t : List (κ × Rat)) (k : κ) (v : Rat) :
    keysOf (addTotal t k v) = if k ∈ keysOf t then keysOf t else keysOf t ++ [k] :=
  keysOf_bumpEntry _ _ _ _

/-- A paired counter/total bump with the same key keeps the key lists equal. -/
theorem keysOf_incKey_addTotal {κ : Type} [DecidableEq κ] {c : List (κ × Nat)}
    {t : List (κ × Rat)} (h : keysOf c = keysOf t) (k : κ) (v : Rat) :
    keysOf (incKey c k) = keysOf (addTotal t k v) := by
  rw [keysOf_incKey, keysOf_addTotal, h]

/-! ### Lemmas: dict insertion and lookup -/

/-- Lookup after a dict write: the written key reads back the new value,
all other keys are untouched. -/
theorem lookup_dictInsert {κ α : Type} [DecidableEq κ] [BEq κ] [LawfulBEq κ]
    (k i : κ) (v : α) (l : List (κ × α)) :
    List.lookup i (dictInsert k v l) = if i = k then some v else List.lookup i l := by
  induction l with
  | nil =>
      by_cases h : i = k
      · simp [dictInsert, List.lookup, h]
      · have hik : (i == k) = false := by simp [h]
        simp [dictInsert, List.lookup, hik, h]
  | cons p ps ih =>
      by_cases hp : p.1 = k
      · subst hp
        by_cases h : i = p.1
        · simp [dictInsert, List.lookup, h]
        · have hik : (i == p.1) = false := by simp [h]
          simp [dictInsert, List.lookup, hik, h]
      · by_cases hip : i = p.1
        · have h : ¬ i = k := fun he => hp (hip ▸ he)
          have hik : (i == p.1) = true := by simp [hip]
          simp [dictInsert, if_neg hp, List.lookup, hik, h, hip]
        · have hik : (i == p.1) = false := by simp [hip]
          simp [dictInsert, if_neg hp, List.lookup, hik, ih]

/-! ### Lemmas: the stable insertion sort -/

theorem mem_insertLt {α : Type} (lt : α → α → Bool) (e y : α) (l : List α) :
    y ∈ insertLt lt e l ↔ y = e ∨ y ∈ l := by
  induction l with
  | nil => simp [insertLt]
  | cons x xs ih =>
      by_cases h : lt x e = true
      · simp only [insertLt, if_pos h, List.mem_cons, ih]
        tauto
      · simp only [insertLt, if_neg h, List.mem_cons]

theorem perm_insertLt {α : Type} (lt : α → α → Bool) (e : α) (l : List α) :
    (insertLt lt e l).Perm (e :: l) := by
  induction l with
  | nil => simp [insertLt]
  | cons x xs ih =>
      by_cases h : lt x e = true
      · simp only [insertLt, if_pos h]
        exact (ih.cons x).trans (List.Perm.swap e x xs)
      · simp [insertLt, if_neg h]

theorem perm_isortBy {α : Type} (lt : α → α → Bool) (l : List α) :
    (isortBy lt l).Perm l := by
  induction l with
  | nil => simp [isortBy]
  | cons x xs ih =>
      exact (perm_insertLt lt x (isortBy lt xs)).trans (ih.cons x)

theorem pairwise_insertLt {α : Type} (lt : α → α → Bool) (le : α → α → Prop)
    (hlt : ∀ a b, lt a b = true → le a b)
    (hnlt : ∀ a b, lt a b = false → le b a)
    (htrans : ∀ a b c, le a b → le b c → le a c)
    (e : α) (l : List α) (h : l.Pairwise le) :
    (insertLt lt e l).Pairwise le := by
  induction l with
  | nil => simp [insertLt]
  | cons x xs ih =>
      rcases List.pairwise_cons.mp h with ⟨hx, hxs⟩
      by_cases hc : lt x e = true
      · simp only [insertLt, if_pos hc]
        refine List.pairwise_cons.mpr ⟨?_, ih hxs⟩
        intro y hy
        rcases (mem_insertLt lt e y xs).mp hy with rfl | hy
        · exact hlt x y hc
        · exact hx y hy
      · simp only [insertLt, if_neg hc]
        have hex : le e x := hnlt x e (Bool.not_eq_true _ ▸ hc)
        refine List.pairwise_cons.mpr ⟨?_, h⟩
        intro y hy
        rcases List.mem_cons.mp hy with rfl | hy
        · exact hex
        · exact htrans e x y hex (hx y hy)

theorem pairwise_isortBy {α : Type} (lt : α → α → Bool) (le : α → α → Prop)
    (hlt : ∀ a b, lt a b = true → le a b)
    (hnlt : ∀ a b, lt a b = false → le b a)
    (htrans : ∀ a b c, le a b → le b c → le a c)
    (l : List α) : (isortBy lt l).Pairwise le := by
  induction l with
  | nil => simp [isortBy]
  | cons x xs ih =>
      exact pairwise_insertLt lt le hlt hnlt htrans x (isortBy lt xs) ih

theorem filter_insertLt_pos {α : Type} (lt : α → α → Bool) (p : α → Bool) (e : α)
    (hpe : p e = true) (hdrop : ∀ x, lt x e = true → p x = false) (l : List α) :
    (insertLt lt e l).filter p = e :: l.filter p := by
  induction l with
  | nil => simp [insertLt, List.filter, hpe]
  | cons x xs ih =>
      by_cases hc : lt x e = true
      · have hx : p x = false := hdrop x hc
        simp only [insertLt, if_pos hc, List.filter, hx]
        exact ih
      · simp [insertLt, if_neg hc, List.filter, hpe]

theorem filter_insertLt_neg {α : Type} (lt : α → α → Bool) (p : α → Bool) (e : α)
    (hpe : p e = false) (l : List α) :
    (insertLt lt e l).filter p = l.filter p := by
  induction l with
  | nil => simp [insertLt, List.filter, hpe]
  | cons x xs ih =>
      by_cases hc : lt x e = true
      · simp only [insertLt, if_pos hc, List.filter]
        cases p x <;> simp [ih]
      · simp [insertLt, if_neg hc, List.filter, hpe]

/-- Stability of the insertion sort, in the classical key-filter form:
sorting does not reorder the elements selected by a predicate no two of
whose elements compare strictly. -/
theorem filter_isortBy {α : Type} (lt : α → α → Bool) (p : α → Bool)
    (hinc : ∀ z x, p x = true → lt z x = true → p z = false) (l : List α) :
    (isortBy lt l).filter p = l.filter p := by
  induction l with
  | nil => simp [isortBy]
  | cons x xs ih =>
      by_cases hpx : p x = true
      · rw [isortBy, filter_insertLt_pos lt p x hpx (fun z hz => hinc z x hpx hz), ih]
        simp [List.filter, hpx]
      · have hpx2 : p x = false := by
          cases h : p x
          · rfl
          · exact absurd h hpx
        rw [isortBy, filter_insertLt_neg lt p x hpx2, ih]
        simp [List.filter, hpx2]

/-! ### Per-record contributions: what one record adds to each accumulator -/

/-- Timeline entries contributed by one record. -/
def tlContrib (b : Batch) (r : Recipe) : List TimelineEntry :=
  match b.brewDate with
  | some ts => [mkTimelineEntry b r ts]
  | none => []

/-- Effect of one record on the yearly counter. -/
def yearlyUpd (b : Batch) (c : List (Int × Nat)) : List (Int × Nat) :=
  match b.brewDate with
  | some ts => incKey c (yearOfMillis ts)
  | none => c

/-- Effect of one record on the monthly counter. -/
def monthlyUpd (b : Batch) (c : List (String × Nat)) : List (String × Nat) :=
  match b.brewDate with
  | some ts => incKey c (monthString ts)
  | none => c

/-- Effect of one record on the style counter. -/
def styleUpd (r : Recipe) (c : List (String × Nat)) : List (String × Nat) :=
  match r.style with
  | some st => incKey c (st.name.getD ("Unknown"))
  | none => c

/-- Boil-time values contributed by one record. -/
def boilContrib (r : Recipe) : List Rat :=
  ((r.equipment.getD ⟨none⟩).boilTime).toList

/-- Effect of a fermentable list on the grain counter. -/
def grainsAfter (fs : List Fermentable) (c : List (String × Nat)) : List (String × Nat) :=
  fs.foldl (fun c f => incKey c (f.name.getD ("Unknown"))) c

/-- Effect of a fermentable list on the grain totals. -/
def grainTotalsAfter (fs : List Fermentable) (t : List (String × Rat)) : List (String × Rat) :=
  fs.foldl (fun t f => addTotal t (f.name.getD ("Unknown")) (f.amount.getD 0)) t

/-- Effect of a hop list on the hop counter. -/
def hopsAfter (hs : List HopEntry) (c : List (String × Nat)) : List (String × Nat) :=
  hs.foldl (fun c h => incKey c (h.name.getD ("Unknown"))) c

/-- Effect of a hop list on the hop totals. -/
def hopTotalsAfter (hs : List HopEntry) (t : List (String × Rat)) : List (String × Rat) :=
  hs.foldl (fun t h => addTotal t (h.name.getD ("Unknown")) (h.amount.getD 0)) t

/-- Effect of a yeast list on the yeast counter. -/
def yeastsAfter (ys : List YeastEntry) (c : List (String × Nat)) : List (String × Nat) :=
  ys.foldl (fun c y => incKey c (yeastFull y)) c

/-- The temperature of the first fermentation step, when there is one. -/
def firstStepTemp (r : Recipe) : Option Rat :=
  match (r.fermentation.getD ⟨none⟩).steps with
  | some (st :: _) => st.stepTemp
  | _ => none

/-- Fermentation temperatures contributed by one record: the first step's
temperature when it is truthy (present and nonzero). -/
def fermTempContrib (r : Recipe) : List Rat :=
  match firstStepTemp r with
  | some t => if t ≠ 0 then [t] else []
  | none => []

/-! ### Characterization of each rule as a record update -/

theorem ruleTimeline_eq (b : Batch) (r : Recipe) (s : Stats) :
    ruleTimeline b r s =
      { s with
        batch_timeline := s.batch_timeline ++ tlContrib b r
        yearly_brews := yearlyUpd b s.yearly_brews
        monthly_brews := monthlyUpd b s.monthly_brews } := by
  cases h : b.brewDate <;> simp [ruleTimeline, tlContrib, yearlyUpd, monthlyUpd, h]

theorem ruleStyle_eq (r : Recipe) (s : Stats) :
    ruleStyle r s = { s with styles := styleUpd r s.styles } := by
  cases h : r.style <;> simp [ruleStyle, styleUpd, h]

theorem ruleABV_eq (b : Batch) (s : Stats) :
    ruleABV b s = { s with abv_distribution := s.abv_distribution ++ b.abv.toList } := by
  cases h : b.abv <;> simp [ruleABV, h]

theorem ruleIBU_eq (r : Recipe) (s : Stats) :
    ruleIBU r s = { s with ibu_distribution := s.ibu_distribution ++ r.ibu.toList } := by
  cases h : r.ibu <;> simp [ruleIBU, h]

theorem ruleOG_eq (b : Batch) (s : Stats) :
    ruleOG b s = { s with og_distribution := s.og_distribution ++ b.og.toList } := by
  cases h : b.og <;> simp [ruleOG, h]

theorem ruleFG_eq (b : Batch) (s : Stats) :
    ruleFG b s = { s with fg_distribution := s.fg_distribution ++ b.fg.toList } := by
  cases h : b.fg <;> simp [ruleFG, h]

theorem ruleColor_eq (r : Recipe) (s : Stats) :
    ruleColor r s = { s with color_srm := s.color_srm ++ r.estimatedColor.toList } := by
  cases h : r.estimatedColor <;> simp [ruleColor, h]

theorem ruleEfficiency_eq (b : Batch) (s : Stats) :
    ruleEfficiency b s = { s with efficiency := s.efficiency ++ b.efficiency.toList } := by
  cases h : b.efficiency <;> simp [ruleEfficiency, h]

theorem ruleBatchSize_eq (r : Recipe) (s : Stats) :
    ruleBatchSize r s = { s with batch_sizes := s.batch_sizes ++ r.batchSize.toList } := by
  cases h : r.batchSize <;> simp [ruleBatchSize, h]

theorem ruleBoilTime_eq (r : Recipe) (s : Stats) :
    ruleBoilTime r s = { s with boil_times := s.boil_times ++ boilContrib r } := by
  cases h : (r.equipment.getD ⟨none⟩).boilTime <;> simp [ruleBoilTime, boilContrib, h]

theorem ruleFermentables_eq (r : Recipe) (s : Stats) :
    ruleFermentables r s =
      { s with
        grains := grainsAfter (r.fermentables.getD []) s.grains
        grain_totals := grainTotalsAfter (r.fermentables.getD []) s.grain_totals } := by
  rw [ruleFermentables]
  generalize r.fermentables.getD [] = fs
  induction fs generalizing s with
  | nil => simp [grainsAfter, grainTotalsAfter]
  | cons f fs ih => simp [List.foldl_cons, grainsAfter, grainTotalsAfter, ih]

theorem ruleHops_eq (r : Recipe) (s : Stats) :
    ruleHops r s =
      { s with
        hops := hopsAfter (r.hops.getD []) s.hops
        hop_totals := hopTotalsAfter (r.hops.getD []) s.hop_totals } := by
  rw [ruleHops]
  generalize r.hops.getD [] = hs
  induction hs generalizing s with
  | nil => simp [hopsAfter, hopTotalsAfter]
  | cons h hs ih => simp [List.foldl_cons, hopsAfter, hopTotalsAfter, ih]

theorem ruleYeasts_eq (r : Recipe) (s : Stats) :
    ruleYeasts r s = { s with yeasts := yeastsAfter (r.yeasts.getD []) s.yeasts } := by
  rw [ruleYeasts]
  generalize r.yeasts.getD [] = ys
  induction ys generalizing s with
  | nil => simp [yeastsAfter]
  | cons y ys ih => simp [List.foldl_cons, yeastsAfter, ih]

theorem ruleFermTemp_eq (r : Recipe) (s : Stats) :
    ruleFermTemp r s =
      { s with fermentation_temps := s.fermentation_temps ++ fermTempContrib r } := by
  rw [ruleFermTemp]
  rw [fermTempContrib, firstStepTemp]
  cases h : (r.fermentation.getD ⟨none⟩).steps with
  | none => simp
  | some steps =>
      cases steps with
      | nil => simp
      | cons st rest =>
          cases ht : st.stepTemp with
          | none => simp [ht]
          | some t =>
              by_cases hz : t = 0
              · simp [ht, hz]
              · simp [ht, hz]

/-- One record's full effect on the statistics, as a single record update:
the composition of all rules in source order. -/
theorem processRecipe_eq (b : Batch) (r : Recipe) (s : Stats) :
    processRecipe b r s =
      { s with
        batch_timeline := s.batch_timeline ++ tlContrib b r
        yearly_brews := yearlyUpd b s.yearly_brews
        monthly_brews := monthlyUpd b s.monthly_brews
        styles := styleUpd r s.styles
        abv_distribution := s.abv_distribution ++ b.abv.toList
        ibu_distribution := s.ibu_distribution ++ r.ibu.toList
        og_distribution := s.og_distribution ++ b.og.toList
        fg_distribution := s.fg_distribution ++ b.fg.toList
        color_srm := s.color_srm ++ r.estimatedColor.toList
        efficiency := s.efficiency ++ b.efficiency.toList
        batch_sizes := s.batch_sizes ++ r.batchSize.toList
        boil_times := s.boil_times ++ boilContrib r
        grains := grainsAfter (r.fermentables.getD []) s.grains
        grain_totals := grainTotalsAfter (r.fermentables.getD []) s.grain_totals
        hops := hopsAfter (r.hops.getD []) s.hops
        hop_totals := hopTotalsAfter (r.hops.getD []) s.hop_totals
        yeasts := yeastsAfter (r.yeasts.getD []) s.yeasts
        fermentation_temps := s.fermentation_temps ++ fermTempContrib r } := by
  simp only [processRecipe, ruleTimeline_eq, ruleStyle_eq, ruleABV_eq, ruleIBU_eq,
    ruleOG_eq, ruleFG_eq, ruleColor_eq, ruleEfficiency_eq, ruleBatchSize_eq,
    ruleBoilTime_eq, ruleFermentables_eq, ruleHops_eq, ruleYeasts_eq, ruleFermTemp_eq]

/-- A record with a well-formed recipe object. -/
theorem stepStats_present (s : Stats) (b : Batch) (r : Recipe)
    (h : b.recipe = RecipeField.present r) :
    stepStats s b = processRecipe b r (ruleBrewer b s) := by
  simp [stepStats, h]

/-- A record without a recipe key is processed with the empty recipe. -/
theorem stepStats_absent (s : Stats) (b : Batch)
    (h : b.recipe = RecipeField.absent) :
    stepStats s b = processRecipe b emptyRecipe (ruleBrewer b s) := by
  simp [stepStats, h]

/-- A record with a malformed recipe keeps exactly the already-applied
brewer-counter update: the exception is caught, nothing is rolled back, and
nothing further is applied. -/
theorem stepStats_malformed (s : Stats) (b : Batch) (m : String)
    (h : b.recipe = RecipeField.malformed m) :
    stepStats s b = ruleBrewer b s := by
  simp [stepStats, h]

/-! ### The fold: state and diagnostics -/

/-- Folding records into the statistics (the loop of source lines 43-140),
from an arbitrary starting state. -/
def aggStats (batches : List Batch) (s : Stats) : Stats :=
  batches.foldl stepStats s

theorem aggStats_nil (s : Stats) : aggStats [] s = s := rfl

theorem aggStats_cons (b : Batch) (bs : List Batch) (s : Stats) :
    aggStats (b :: bs) s = aggStats bs (stepStats s b) := rfl

theorem aggStats_append (bs1 bs2 : List Batch) (s : Stats) :
    aggStats (bs1 ++ bs2) s = aggStats bs2 (aggStats bs1 s) :=
  List.foldl_append stepStats s bs1 bs2

/-- The paired fold splits into the state fold and the diagnostics list;
the diagnostics are exactly the per-record error messages in input order. -/
theorem aggregatePass_eq (batches : List Batch) :
    aggregatePass batches =
      (aggStats batches (initStats batches), batches.filterMap errOf) := by
  rw [aggregatePass]
  rw [show batches.filterMap errOf = [] ++ batches.filterMap errOf from rfl]
  generalize initStats batches = s0
  generalize ([] : List String) = log0
  induction batches generalizing s0 log0 with
  | nil => simp [aggStats]
  | cons b bs ih =>
      rw [List.foldl_cons, ih, aggStats_cons, List.filterMap_cons]
      cases h : errOf b <;> simp [h]

/-! ### Preservation through the pass -/

theorem stepStats_total_batches (s : Stats) (b : Batch) :
    (stepStats s b).total_batches = s.total_batches := by
  cases h : b.recipe with
  | malformed m => rw [stepStats_malformed s b m h]; rfl
  | absent => rw [stepStats_absent s b h, processRecipe_eq]; rfl
  | present r => rw [stepStats_present s b r h, processRecipe_eq]; rfl

theorem aggStats_total_batches (bs : List Batch) (s : Stats) :
    (aggStats bs s).total_batches = s.total_batches := by
  induction bs generalizing s with
  | nil => rfl
  | cons b bs ih => rw [aggStats_cons, ih, stepStats_total_batches]

/-- The derived scalars of a statistics value, as one tuple. -/
def derivedTuple (s : Stats) :=
  (s.avg_abv, s.min_abv, s.max_abv, s.avg_ibu, s.min_ibu, s.max_ibu,
   s.avg_batch_size, s.avg_efficiency, s.avg_color, s.total_volume, s.years_brewing)

/-- The loop never touches any derived scalar. -/
theorem stepStats_derivedTuple (s : Stats) (b : Batch) :
    derivedTuple (stepStats s b) = derivedTuple s := by
  cases h : b.recipe with
  | malformed m => rw [stepStats_malformed s b m h]; rfl
  | absent => rw [stepStats_absent s b h, processRecipe_eq]; rfl
  | present r => rw [stepStats_present s b r h, processRecipe_eq]; rfl

theorem aggStats_derivedTuple (bs : List Batch) (s : Stats) :
    derivedTuple (aggStats bs s) = derivedTuple s := by
  induction bs generalizing s with
  | nil => rfl
  | cons b bs ih => rw [aggStats_cons, ih, stepStats_derivedTuple]

/-! ### Lock-step of ingredient counters and totals -/

theorem keysOf_grainsAfter (fs : List Fermentable) {c : List (String × Nat)}
    {t : List (String × Rat)} (h : keysOf c = keysOf t) :
    keysOf (grainsAfter fs c) = keysOf (grainTotalsAfter fs t) := by
  induction fs generalizing c t with
  | nil => exact h
  | cons f fs ih =>
      exact ih (keysOf_incKey_addTotal h (f.name.getD ("Unknown")) (f.amount.getD 0))

theorem keysOf_hopsAfter (hs : List HopEntry) {c : List (String × Nat)}
    {t : List (String × Rat)} (h : keysOf c = keysOf t) :
    keysOf (hopsAfter hs c) = keysOf (hopTotalsAfter hs t) := by
  induction hs generalizing c t with
  | nil => exact h
  | cons x hs ih =>
      exact ih (keysOf_incKey_addTotal h (x.name.getD ("Unknown")) (x.amount.getD 0))

theorem stepStats_lockstep (s : Stats) (b : Batch)
    (hg : keysOf s.grains = keysOf s.grain_totals)
    (hh : keysOf s.hops = keysOf s.hop_totals) :
    keysOf (stepStats s b).grains = keysOf (stepStats s b).grain_totals ∧
      keysOf (stepStats s b).hops = keysOf (stepStats s b).hop_totals := by
  cases h : b.recipe with
  | malformed m =>
      rw [stepStats_malformed s b m h]
      exact ⟨hg, hh⟩
  | absent =>
      rw [stepStats_absent s b h, processRecipe_eq]
      exact ⟨keysOf_grainsAfter _ hg, keysOf_hopsAfter _ hh⟩
  | present r =>
      rw [stepStats_present s b r h, processRecipe_eq]
      exact ⟨keysOf_grainsAfter _ hg, keysOf_hopsAfter _ hh⟩

theorem aggStats_lockstep (bs : List Batch) (s : Stats)
    (hg : keysOf s.grains = keysOf s.grain_totals)
    (hh : keysOf s.hops = keysOf s.hop_totals) :
    keysOf (aggStats bs s).grains = keysOf (aggStats bs s).grain_totals ∧
      keysOf (aggStats bs s).hops = keysOf (aggStats bs s).hop_totals := by
  induction bs generalizing s with
  | nil => exact ⟨hg, hh⟩
  | cons b bs ih =>
      rw [aggStats_cons]
      obtain ⟨hg2, hh2⟩ := stepStats_lockstep s b hg hh
      exact ih (stepStats s b) hg2 hh2

/-! ### Characterization of the derived-metric computation -/

theorem finalizeDerived_eq (s : Stats) :
    finalizeDerived s =
      { s with
        avg_abv := if s.abv_distribution ≠ [] then some (avgList s.abv_distribution) else s.avg_abv
        min_abv := if s.abv_distribution ≠ [] then some (listMin s.abv_distribution) else s.min_abv
        max_abv := if s.abv_distribution ≠ [] then some (listMax s.abv_distribution) else s.max_abv
        avg_ibu := if s.ibu_distribution ≠ [] then some (avgList s.ibu_distribution) else s.avg_ibu
        min_ibu := if s.ibu_distribution ≠ [] then some (listMin s.ibu_distribution) else s.min_ibu
        max_ibu := if s.ibu_distribution ≠ [] then some (listMax s.ibu_distribution) else s.max_ibu
        avg_batch_size := if s.batch_sizes ≠ [] then some (avgList s.batch_sizes) else s.avg_batch_size
        avg_efficiency := if s.efficiency ≠ [] then some (avgList s.efficiency) else s.avg_efficiency
        avg_color := if s.color_srm ≠ [] then some (avgList s.color_srm) else s.avg_color
        total_volume := some (if s.batch_sizes ≠ [] then s.batch_sizes.sum else 0)
        years_brewing :=
          some (if 2 ≤ s.batch_timeline.length then
            ((strptimeDays ((s.batch_timeline.getLast?.getD default).date)
              - strptimeDays ((s.batch_timeline.head?.getD default).date) : Int) : Rat)
              / (365.25 : Rat)
          else 0) } := rfl

/-- `analyze_batches` as pass, sort, and finalize. -/
theorem analyze_batches_eq (bs : List Batch) :
    analyze_batches bs =
      finalizeDerived
        { aggStats bs (initStats bs) with
          batch_timeline := sortTimeline (aggStats bs (initStats bs)).batch_timeline } := by
  rw [analyze_batches, aggregatePass_eq]

/-! ### Mean, minimum and maximum -/

theorem foldl_min_le (xs : List Rat) (a : Rat) :
    xs.foldl min a ≤ a ∧ ∀ y ∈ xs, xs.foldl min a ≤ y := by
  induction xs generalizing a with
  | nil => simp
  | cons x xs ih =>
      obtain ⟨h1, h2⟩ := ih (min a x)
      refine ⟨h1.trans (min_le_left a x), ?_⟩
      intro y hy
      rcases List.mem_cons.mp hy with rfl | hy
      · exact h1.trans (min_le_right a y)
      · exact h2 y hy

theorem le_foldl_max (xs : List Rat) (a : Rat) :
    a ≤ xs.foldl max a ∧ ∀ y ∈ xs, y ≤ xs.foldl max a := by
  induction xs generalizing a with
  | nil => simp
  | cons x xs ih =>
      obtain ⟨h1, h2⟩ := ih (max a x)
      refine ⟨(le_max_left a x).trans h1, ?_⟩
      intro y hy
      rcases List.mem_cons.mp hy with rfl | hy
      · exact (le_max_right a y).trans h1
      · exact h2 y hy

theorem listMin_le (l : List Rat) (y : Rat) (hy : y ∈ l) : listMin l ≤ y := by
  cases l with
  | nil => cases hy
  | cons x xs =>
      rcases List.mem_cons.mp hy with rfl | hy
      · exact (foldl_min_le xs y).1
      · exact (foldl_min_le xs x).2 y hy

theorem le_listMax (l : List Rat) (y : Rat) (hy : y ∈ l) : y ≤ listMax l := by
  cases l with
  | nil => cases hy
  | cons x xs =>
      rcases List.mem_cons.mp hy with rfl | hy
      · exact (le_foldl_max xs y).1
      · exact (le_foldl_max xs x).2 y hy

theorem listMin_le_avgList (l : List Rat) (hl : l ≠ []) : listMin l ≤ avgList l := by
  have hpos : 0 < (l.length : Rat) := by
    exact_mod_cast List.length_pos.mpr hl
  rw [avgList, le_div_iff₀ hpos]
  have h := List.card_nsmul_le_sum l (listMin l) (fun y hy => listMin_le l y hy)
  rw [nsmul_eq_mul] at h
  calc listMin l * (l.length : Rat) = (l.length : Rat) * listMin l := mul_comm _ _
    _ ≤ l.sum := h

theorem avgList_le_listMax (l : List Rat) (hl : l ≠ []) : avgList l ≤ listMax l := by
  have hpos : 0 < (l.length : Rat) := by
    exact_mod_cast List.length_pos.mpr hl
  rw [avgList, div_le_iff₀ hpos]
  have h := List.sum_le_card_nsmul l (listMax l) (fun y hy => le_listMax l y hy)
  rw [nsmul_eq_mul] at h
  calc l.sum ≤ (l.length : Rat) * listMax l := h
    _ = listMax l * (l.length : Rat) := mul_comm _ _

/-! ### Helpers for membership in conditional sections and dict lookups -/

theorem mem_ite_singleton {α : Type} (a x : α) (c : Prop) [Decidable c] :
    (a ∈ if c then [x] else ([] : List α)) ↔ c ∧ a = x := by
  by_cases h : c <;> simp [h]

theorem getLast?_cons_eq {α : Type} (a : α) (l : List α) :
    (a :: l).getLast? =
      match l.getLast? with
      | some x => some x
      | none => some a := by
  cases l with
  | nil => simp
  | cons b bs =>
      rw [List.getLast?_cons_cons]
      cases hx : (b :: bs).getLast? with
      | none =>
          rw [List.getLast?_eq_none_iff] at hx
          cases hx
      | some x => rfl

/-- Where a key of the detailed-batches mapping comes from: the last record
of the input carrying that identifier (last-write-wins), else the
accumulator. -/
theorem lookup_buildDetailedFrom (bs : List Batch) :
    ∀ (acc d : List (String × Batch)),
      buildDetailedFrom acc bs = Except.ok d → ∀ i : String,
      List.lookup i d =
        match (bs.filter (fun b => b.batchId == some i)).getLast? with
        | some b => some b
        | none => List.lookup i acc := by
  induction bs with
  | nil =>
      intro acc d h i
      simp only [buildDetailedFrom, Except.ok.injEq] at h
      subst h
      simp
  | cons b bs ih =>
      intro acc d h i
      cases hid : b.batchId with
      | none => simp [buildDetailedFrom, hid] at h
      | some j =>
          simp only [buildDetailedFrom, hid] at h
          have h2 := ih (dictInsert j b acc) d h i
          rw [h2]
          by_cases hij : j = i
          · subst hij
            have hb : (b.batchId == some j) = true := by simp [hid]
            rw [List.filter_cons, if_pos hb, getLast?_cons_eq]
            cases hl : (bs.filter (fun b2 => b2.batchId == some j)).getLast? with
            | some x => rfl
            | none =>
                rw [lookup_dictInsert]
                simp
          · have hb : (b.batchId == some i) = false := by simp [hid, hij]
            rw [List.filter_cons, if_neg (by simp [hb])]
            cases hl : (bs.filter (fun b2 => b2.batchId == some i)).getLast? with
            | some x => rfl
            | none =>
                rw [lookup_dictInsert]
                rw [if_neg (fun he => hij he.symm)]

/-- A single record without an identifier key makes the detailed-batches
comprehension raise `KeyError`. -/
theorem buildDetailedFrom_error (bs : List Batch) :
    ∀ acc : List (String × Batch), (∃ b ∈ bs, b.batchId = none) →
      buildDetailedFrom acc bs = Except.error ("KeyError: _id") := by
  induction bs with
  | nil =>
      intro acc h
      obtain ⟨b, hb, _⟩ := h
      cases hb
  | cons b bs ih =>
      intro acc h
      cases hid : b.batchId with
      | none => simp [buildDetailedFrom, hid]
      | some j =>
          obtain ⟨x, hx, hxid⟩ := h
          rcases List.mem_cons.mp hx with rfl | hx
          · rw [hid] at hxid
            cases hxid
          · simp only [buildDetailedFrom, hid]
            exact ih (dictInsert j b acc) ⟨x, hx, hxid⟩

/-! ### Concrete records used to witness and refute claims -/

/-- A recipe carrying abv/og/fg/efficiency (and nothing else). -/
def c1recipe : Recipe :=
  { emptyRecipe with abv := some 5, og := some 1, fg := some 1, efficiency := some 70 }

/-- A batch whose recipe has abv/og/fg/efficiency but whose batch object
does not. -/
def c1batch : Batch :=
  ⟨some "c1", some "C1", none, none, none, none, RecipeField.present c1recipe,
    none, none, none, none⟩

/-- A recipe with a present zero IBU and a color. -/
def w1recipe : Recipe :=
  { emptyRecipe with ibu := some 0, estimatedColor := some 10 }

/-- A batch with present zero abv and og/fg/efficiency on the batch object. -/
def w1batch : Batch :=
  ⟨some "w1", some "W1", none, none, none, none, RecipeField.present w1recipe,
    some 0, some 1, some 1, some 70⟩

/-- A recipe whose first fermentation step has temperature 0. -/
def c5recipe : Recipe :=
  { emptyRecipe with fermentation := some ⟨some [⟨some 0⟩]⟩ }

def c5batch : Batch :=
  ⟨some "c5", some "C5", none, none, none, none, RecipeField.present c5recipe,
    none, none, none, none⟩

/-- A recipe whose first fermentation step has temperature 18. -/
def w5recipe : Recipe :=
  { emptyRecipe with fermentation := some ⟨some [⟨some 18⟩]⟩ }

def w5batch : Batch :=
  ⟨some "w5", some "W5", none, none, none, none, RecipeField.present w5recipe,
    none, none, none, none⟩

/-- A batch whose recipe raises during processing. -/
def c3batch : Batch :=
  ⟨some "x", some "Bad", none, none, none, none, RecipeField.malformed ("boom"),
    none, none, none, none⟩

/-! ### C1 -/

/-- C1 as stated is false: this record's recipe carries abv, og, fg and
efficiency, yet none of them lands in a distribution, because the program
reads those four fields from the batch object, not from the recipe. -/
theorem C1_counterexample :
    c1recipe.abv = some 5 ∧ c1recipe.og = some 1 ∧ c1recipe.fg = some 1 ∧
    c1recipe.efficiency = some 70 ∧
    c1batch.recipe = RecipeField.present c1recipe ∧
    (analyze_batches [c1batch]).abv_distribution = [] ∧
    (analyze_batches [c1batch]).og_distribution = [] ∧
    (analyze_batches [c1batch]).fg_distribution = [] ∧
    (analyze_batches [c1batch]).efficiency = [] := by
  exact ⟨rfl, rfl, rfl, rfl, rfl, rfl, rfl, rfl, rfl⟩

/-- C1 (amended): per record, the six numeric fields are appended to their
distributions exactly when present, but abv, og, fg and efficiency are read
from the batch object while ibu and estimated color are read from the
recipe; presence alone gates inclusion (`Option.toList` appends a present
value even when it is zero or otherwise falsy). -/
theorem C1_amended (s : Stats) (b : Batch) (r : Recipe)
    (h : b.recipe = RecipeField.present r) :
    (stepStats s b).abv_distribution = s.abv_distribution ++ b.abv.toList ∧
    (stepStats s b).ibu_distribution = s.ibu_distribution ++ r.ibu.toList ∧
    (stepStats s b).og_distribution = s.og_distribution ++ b.og.toList ∧
    (stepStats s b).fg_distribution = s.fg_distribution ++ b.fg.toList ∧
    (stepStats s b).color_srm = s.color_srm ++ r.estimatedColor.toList ∧
    (stepStats s b).efficiency = s.efficiency ++ b.efficiency.toList := by
  rw [stepStats_present s b r h, processRecipe_eq]
  exact ⟨rfl, rfl, rfl, rfl, rfl, rfl⟩

/-- Witness for the amended C1 at a concrete record with present zero
values. -/
theorem C1_amended_witness :
    (stepStats (initStats []) w1batch).abv_distribution =
      (initStats []).abv_distribution ++ w1batch.abv.toList ∧
    (stepStats (initStats []) w1batch).ibu_distribution =
      (initStats []).ibu_distribution ++ w1recipe.ibu.toList ∧
    (stepStats (initStats []) w1batch).og_distribution =
      (initStats []).og_distribution ++ w1batch.og.toList ∧
    (stepStats (initStats []) w1batch).fg_distribution =
      (initStats []).fg_distribution ++ w1batch.fg.toList ∧
    (stepStats (initStats []) w1batch).color_srm =
      (initStats []).color_srm ++ w1recipe.estimatedColor.toList ∧
    (stepStats (initStats []) w1batch).efficiency =
      (initStats []).efficiency ++ w1batch.efficiency.toList :=
  C1_amended (initStats []) w1batch w1recipe rfl

/-! ### C5 -/

/-- C5 as stated is false: a present first-step temperature of 0 is not
appended, because the program guards the append with a truthiness test
(`if primary_temp:`), not a presence test. -/
theorem C5_counterexample :
    firstStepTemp c5recipe = some 0 ∧
    c5batch.recipe = RecipeField.present c5recipe ∧
    (analyze_batches [c5batch]).fermentation_temps = [] := by
  exact ⟨rfl, rfl, rfl⟩

/-- C5 (amended): when the fermentation profile has a first step with a
present temperature, that temperature is appended exactly when it is
truthy, i.e. nonzero; a present 0 contributes nothing. -/
theorem C5_amended (s : Stats) (b : Batch) (r : Recipe) (t : Rat)
    (h : b.recipe = RecipeField.present r) (ht : firstStepTemp r = some t) :
    (stepStats s b).fermentation_temps =
      s.fermentation_temps ++ (if t = 0 then [] else [t]) := by
  rw [stepStats_present s b r h, processRecipe_eq]
  show (ruleBrewer b s).fermentation_temps ++ fermTempContrib r = _
  rw [fermTempContrib, ht]
  by_cases hz : t = 0 <;> simp [hz, ruleBrewer]

/-- Witness for the amended C5 at a concrete record with temperature 18. -/
theorem C5_amended_witness :
    (stepStats (initStats []) w5batch).fermentation_temps =
      (initStats []).fermentation_temps ++ (if (18 : Rat) = 0 then [] else [18]) :=
  C5_amended (initStats []) w5batch w5recipe 18 rfl rfl

/-! ### C3 -/

/-- C3: an error raised while folding one record is caught: the diagnostics
are exactly the per-record error messages (one per raising record, naming
it by its name or "Unknown"), `total_batches` always equals the input
length, the pass continues (the fold is total), and nothing is rolled
back — a raising record keeps its already-applied brewer-counter update. -/
theorem C3_error_recovery (bs : List Batch) :
    (analyze_batches bs).total_batches = bs.length ∧
    analyzeLog bs = bs.filterMap errOf ∧
    (∀ b ∈ bs, ∀ m : String, b.recipe = RecipeField.malformed m →
      ("Error processing batch " ++ b.name.getD ("Unknown") ++ ": " ++ m) ∈ analyzeLog bs) ∧
    (∀ (s : Stats) (b : Batch) (m : String), b.recipe = RecipeField.malformed m →
      stepStats s b = ruleBrewer b s) := by
  refine ⟨?_, ?_, ?_, ?_⟩
  · rw [analyze_batches_eq, finalizeDerived_eq]
    show (aggStats bs (initStats bs)).total_batches = bs.length
    rw [aggStats_total_batches]
    rfl
  · rw [analyzeLog, aggregatePass_eq]
  · intro b hb m hm
    rw [analyzeLog, aggregatePass_eq]
    refine List.mem_filterMap.mpr ⟨b, hb, ?_⟩
    simp [errOf, hm]
  · intro s b m hm
    exact stepStats_malformed s b m hm

/-- Witness for C3 on a one-record input whose recipe raises. -/
theorem C3_error_recovery_witness :
    (analyze_batches [c3batch]).total_batches = 1 ∧
    ("Error processing batch Bad: boom") ∈ analyzeLog [c3batch] ∧
    stepStats (initStats [c3batch]) c3batch = ruleBrewer c3batch (initStats [c3batch]) := by
  have h := C3_error_recovery [c3batch]
  refine ⟨h.1, ?_, h.2.2.2 (initStats [c3batch]) c3batch ("boom") rfl⟩
  have hm := h.2.2.1 c3batch (List.mem_singleton.mpr rfl) ("boom") rfl
  simpa using hm

/-! ### C6 -/

/-- C6: after aggregation the grain frequency counter and the grain total
map have the same keys, in the same insertion order (hence the same key
set), and likewise for hops. -/
theorem C6_lockstep (bs : List Batch) :
    keysOf (analyze_batches bs).grains = keysOf (analyze_batches bs).grain_totals ∧
    keysOf (analyze_batches bs).hops = keysOf (analyze_batches bs).hop_totals := by
  rw [analyze_batches_eq, finalizeDerived_eq]
  have h := aggStats_lockstep bs (initStats bs) rfl rfl
  exact ⟨h.1, h.2⟩

/-! ### C7 -/

/-- C7: the finalized timeline is sorted ascending by date (every adjacent
pair in particular), it is a permutation of the pass-order timeline, and
the sort is stable: for each date, the entries carrying that date appear in
exactly their pass order. -/
theorem C7_timeline_sorted (bs : List Batch) :
    List.Pairwise (fun a b : TimelineEntry => a.date ≤ b.date)
      (analyze_batches bs).batch_timeline ∧
    (∀ d : String,
      (analyze_batches bs).batch_timeline.filter (fun e => e.date == d) =
        (aggregatePass bs).1.batch_timeline.filter (fun e => e.date == d)) ∧
    (analyze_batches bs).batch_timeline.Perm (aggregatePass bs).1.batch_timeline := by
  have htl : (analyze_batches bs).batch_timeline =
      isortBy (fun a b : TimelineEntry => decide (a.date < b.date))
        (aggStats bs (initStats bs)).batch_timeline := by
    rw [analyze_batches_eq, finalizeDerived_eq]
    rfl
  rw [aggregatePass_eq, htl]
  refine ⟨?_, ?_, ?_⟩
  · exact pairwise_isortBy (fun a b : TimelineEntry => decide (a.date < b.date))
      (fun a b : TimelineEntry => a.date ≤ b.date)
      (fun a b h => le_of_lt (of_decide_eq_true h))
      (fun a b h => le_of_not_lt (of_decide_eq_false h))
      (fun a b c h1 h2 => le_trans h1 h2) _
  · intro d
    apply filter_isortBy
    intro z x hpx hzx
    have hx : x.date = d := by simpa using hpx
    have hz : z.date < x.date := of_decide_eq_true hzx
    have hne : z.date ≠ d := by
      rw [← hx]
      exact ne_of_lt hz
    simpa using hne
  · exact perm_isortBy _ _

/-! ### C8 -/

/-- C8: each derived average/min/max is present on the result exactly when
its source distribution is non-empty; `total_volume` and `years_brewing`
are always present (0 when their precondition fails); and the empty input
yields zero batches, no derived averages, zero total volume and zero years
brewing. -/
theorem C8_derived_presence (bs : List Batch) :
    ((analyze_batches bs).avg_abv.isSome ↔ (analyze_batches bs).abv_distribution ≠ []) ∧
    ((analyze_batches bs).min_abv.isSome ↔ (analyze_batches bs).abv_distribution ≠ []) ∧
    ((analyze_batches bs).max_abv.isSome ↔ (analyze_batches bs).abv_distribution ≠ []) ∧
    ((analyze_batches bs).avg_ibu.isSome ↔ (analyze_batches bs).ibu_distribution ≠ []) ∧
    ((analyze_batches bs).min_ibu.isSome ↔ (analyze_batches bs).ibu_distribution ≠ []) ∧
    ((analyze_batches bs).max_ibu.isSome ↔ (analyze_batches bs).ibu_distribution ≠ []) ∧
    ((analyze_batches bs).avg_batch_size.isSome ↔ (analyze_batches bs).batch_sizes ≠ []) ∧
    ((analyze_batches bs).avg_efficiency.isSome ↔ (analyze_batches bs).efficiency ≠ []) ∧
    ((analyze_batches bs).avg_color.isSome ↔ (analyze_batches bs).color_srm ≠ []) ∧
    (analyze_batches bs).total_volume.isSome ∧
    (analyze_batches bs).years_brewing.isSome ∧
    (analyze_batches []).total_batches = 0 ∧
    (analyze_batches []).avg_abv = none ∧
    (analyze_batches []).min_abv = none ∧
    (analyze_batches []).max_abv = none ∧
    (analyze_batches []).avg_ibu = none ∧
    (analyze_batches []).min_ibu = none ∧
    (analyze_batches []).max_ibu = none ∧
    (analyze_batches []).avg_batch_size = none ∧
    (analyze_batches []).avg_efficiency = none ∧
    (analyze_batches []).avg_color = none ∧
    (analyze_batches []).total_volume = some 0 ∧
    (analyze_batches []).years_brewing = some 0 := by
  have hd : derivedTuple (aggStats bs (initStats bs)) =
      (none, none, none, none, none, none, none, none, none, none, (none : Option Rat)) :=
    (aggStats_derivedTuple bs (initStats bs)).trans rfl
  simp only [derivedTuple, Prod.mk.injEq] at hd
  obtain ⟨e1, e2, e3, e4, e5, e6, e7, e8, e9, e10, e11⟩ := hd
  rw [analyze_batches_eq, finalizeDerived_eq]
  refine ⟨?_, ?_, ?_, ?_, ?_, ?_, ?_, ?_, ?_, ?_, ?_, by decide, by decide, by decide,
    by decide, by decide, by decide, by decide, by decide, by decide, by decide,
    by decide, by decide⟩
  · by_cases h : (aggStats bs (initStats bs)).abv_distribution = [] <;> simp [h, e1]
  · by_cases h : (aggStats bs (initStats bs)).abv_distribution = [] <;> simp [h, e2]
  · by_cases h : (aggStats bs (initStats bs)).abv_distribution = [] <;> simp [h, e3]
  · by_cases h : (aggStats bs (initStats bs)).ibu_distribution = [] <;> simp [h, e4]
  · by_cases h : (aggStats bs (initStats bs)).ibu_distribution = [] <;> simp [h, e5]
  · by_cases h : (aggStats bs (initStats bs)).ibu_distribution = [] <;> simp [h, e6]
  · by_cases h : (aggStats bs (initStats bs)).batch_sizes = [] <;> simp [h, e7]
  · by_cases h : (aggStats bs (initStats bs)).efficiency = [] <;> simp [h, e8]
  · by_cases h : (aggStats bs (initStats bs)).color_srm = [] <;> simp [h, e9]
  · simp
  · simp

/-! ### C9 -/

/-- C9: whenever the program computed an average, a minimum and a maximum
for the ABV (or IBU) distribution, the average lies between the minimum and
the maximum, inclusive. -/
theorem C9_avg_between (bs : List Batch) :
    (∀ a m M : Rat, (analyze_batches bs).avg_abv = some a →
      (analyze_batches bs).min_abv = some m →
      (analyze_batches bs).max_abv = some M → m ≤ a ∧ a ≤ M) ∧
    (∀ a m M : Rat, (analyze_batches bs).avg_ibu = some a →
      (analyze_batches bs).min_ibu = some m →
      (analyze_batches bs).max_ibu = some M → m ≤ a ∧ a ≤ M) := by
  have hd : derivedTuple (aggStats bs (initStats bs)) =
      (none, none, none, none, none, none, none, none, none, none, (none : Option Rat)) :=
    (aggStats_derivedTuple bs (initStats bs)).trans rfl
  simp only [derivedTuple, Prod.mk.injEq] at hd
  obtain ⟨e1, e2, e3, e4, e5, e6, e7, e8, e9, e10, e11⟩ := hd
  rw [analyze_batches_eq, finalizeDerived_eq]
  constructor
  · intro a m M ha hm hM
    by_cases h : (aggStats bs (initStats bs)).abv_distribution = []
    · simp [h, e1] at ha
    · simp only [h, ne_eq, not_false_iff, if_true, Option.some.injEq] at ha hm hM
      subst ha
      subst hm
      subst hM
      exact ⟨listMin_le_avgList _ h, avgList_le_listMax _ h⟩
  · intro a m M ha hm hM
    by_cases h : (aggStats bs (initStats bs)).ibu_distribution = []
    · simp [h, e4] at ha
    · simp only [h, ne_eq, not_false_iff, if_true, Option.some.injEq] at ha hm hM
      subst ha
      subst hm
      subst hM
      exact ⟨listMin_le_avgList _ h, avgList_le_listMax _ h⟩

/-- A batch with abv 5 on the batch object and ibu 30 on the recipe. -/
def w9batch : Batch :=
  ⟨some "w9", some "W9", none, none, none, none,
    RecipeField.present { emptyRecipe with ibu := some 30 },
    some 5, none, none, none⟩

/-- The six ABV/IBU derived fields of the final statistics, in terms of the
pass state (the conditional assignment of source lines 146-154). -/
theorem analyze_abv_ibu_fields (bs : List Batch) :
    ((analyze_batches bs).avg_abv =
      (if (aggStats bs (initStats bs)).abv_distribution ≠ []
       then some (avgList ((aggStats bs (initStats bs)).abv_distribution))
       else (aggStats bs (initStats bs)).avg_abv)) ∧
    ((analyze_batches bs).min_abv =
      (if (aggStats bs (initStats bs)).abv_distribution ≠ []
       then some (listMin ((aggStats bs (initStats bs)).abv_distribution))
       else (aggStats bs (initStats bs)).min_abv)) ∧
    ((analyze_batches bs).max_abv =
      (if (aggStats bs (initStats bs)).abv_distribution ≠ []
       then some (listMax ((aggStats bs (initStats bs)).abv_distribution))
       else (aggStats bs (initStats bs)).max_abv)) ∧
    ((analyze_batches bs).avg_ibu =
      (if (aggStats bs (initStats bs)).ibu_distribution ≠ []
       then some (avgList ((aggStats bs (initStats bs)).ibu_distribution))
       else (aggStats bs (initStats bs)).avg_ibu)) ∧
    ((analyze_batches bs).min_ibu =
      (if (aggStats bs (initStats bs)).ibu_distribution ≠ []
       then some (listMin ((aggStats bs (initStats bs)).ibu_distribution))
       else (aggStats bs (initStats bs)).min_ibu)) ∧
    ((analyze_batches bs).max_ibu =
      (if (aggStats bs (initStats bs)).ibu_distribution ≠ []
       then some (listMax ((aggStats bs (initStats bs)).ibu_distribution))
       else (aggStats bs (initStats bs)).max_ibu)) := by
  rw [analyze_batches_eq, finalizeDerived_eq]
  exact ⟨rfl, rfl, rfl, rfl, rfl, rfl⟩

/-- Witness for C9 on a one-record input where avg = min = max. -/
theorem C9_avg_between_witness :
    ((5 : Rat) ≤ 5 ∧ (5 : Rat) ≤ 5) ∧ ((30 : Rat) ≤ 30 ∧ (30 : Rat) ≤ 30) := by
  have h := C9_avg_between [w9batch]
  have f := analyze_abv_ibu_fields [w9batch]
  have habv : (aggStats [w9batch] (initStats [w9batch])).abv_distribution = [5] := by
    decide
  have hibu : (aggStats [w9batch] (initStats [w9batch])).ibu_distribution = [30] := by
    decide
  refine ⟨h.1 5 5 5 ?_ ?_ ?_, h.2 30 30 30 ?_ ?_ ?_⟩
  · rw [f.1, habv]
    simp [avgList]
  · rw [f.2.1, habv]
    simp [listMin]
  · rw [f.2.2.1, habv]
    simp [listMax]
  · rw [f.2.2.2.1, hibu]
    simp [avgList]
  · rw [f.2.2.2.2.1, hibu]
    simp [listMin]
  · rw [f.2.2.2.2.2, hibu]
    simp [listMax]

/-! ### C4 -/

/-- C4 as stated is false: with empty brewer and style counters the report
still contains a Brewers section and a Beer Styles section, because those
section headers (and the beer-statistics header) are emitted
unconditionally. -/
theorem C4_counterexample :
    (analyze_batches []).brewers = [] ∧
    ReportSec.brewersSec ∈ reportPlan (analyze_batches []) ∧
    (analyze_batches []).styles = [] ∧
    ReportSec.stylesSec ∈ reportPlan (analyze_batches []) ∧
    strContainsSub (generate_markdown_report (analyze_batches [])) ("Brewers") = true ∧
    strContainsSub (generate_markdown_report (analyze_batches [])) ("Beer Styles") = true := by
  decide

/-- C4 (amended): the overview, brewers, beer-statistics-header and styles
sections are always emitted; the yearly timeline, the five per-metric
blocks, grains, hops, yeasts and history are emitted exactly when their
underlying data is non-empty (for the metric blocks: when the average was
computed). -/
theorem C4_amended (stats : Stats) :
    generate_markdown_report stats =
      String.join ((reportPlan stats).map (sectionText stats)) ∧
    ReportSec.overview ∈ reportPlan stats ∧
    ReportSec.brewersSec ∈ reportPlan stats ∧
    ReportSec.beerStatsHeader ∈ reportPlan stats ∧
    ReportSec.stylesSec ∈ reportPlan stats ∧
    (ReportSec.yearlySec ∈ reportPlan stats ↔ stats.yearly_brews ≠ []) ∧
    (ReportSec.abvSec ∈ reportPlan stats ↔ stats.avg_abv.isSome) ∧
    (ReportSec.ibuSec ∈ reportPlan stats ↔ stats.avg_ibu.isSome) ∧
    (ReportSec.batchSizeSec ∈ reportPlan stats ↔ stats.avg_batch_size.isSome) ∧
    (ReportSec.efficiencySec ∈ reportPlan stats ↔ stats.avg_efficiency.isSome) ∧
    (ReportSec.colorSec ∈ reportPlan stats ↔ stats.avg_color.isSome) ∧
    (ReportSec.grainsSec ∈ reportPlan stats ↔ stats.grains ≠ []) ∧
    (ReportSec.hopsSec ∈ reportPlan stats ↔ stats.hops ≠ []) ∧
    (ReportSec.yeastsSec ∈ reportPlan stats ↔ stats.yeasts ≠ []) ∧
    (ReportSec.historySec ∈ reportPlan stats ↔ stats.batch_timeline ≠ []) := by
  refine ⟨rfl, ?_, ?_, ?_, ?_, ?_, ?_, ?_, ?_, ?_, ?_, ?_, ?_, ?_, ?_⟩ <;>
    simp [reportPlan, mem_ite_singleton]

/-! ### C2 -/

/-- A batch with identifier "dup" and no other content. -/
def c2batchA : Batch :=
  ⟨some "dup", some "A2", none, none, none, none, RecipeField.absent,
    none, none, none, none⟩

/-- A second batch with the same identifier "dup". -/
def c2batchB : Batch :=
  ⟨some "dup", some "B2", none, none, none, none, RecipeField.absent,
    none, none, none, none⟩

/-- C2 as stated is false: `og_distribution` is a Statistics field, but the
export document has no such key — the nine raw numeric distributions are
not serialized. -/
theorem C2_counterexample :
    ("og_distribution" ∈ statsFieldNames) ∧
    main_export [c2batchA] =
      Except.ok (exportDocOf (analyze_batches [c2batchA]) [("dup", c2batchA)]) ∧
    ("og_distribution" ∉ keysOf (exportDocOf (analyze_batches [c2batchA]) [("dup", c2batchA)])) := by
  refine ⟨by decide, rfl, by decide⟩

/-- C2 (amended): the export document carries exactly the keys
`exportKeys` — the counters and totals, the timeline, `total_batches`, the
derived scalars (defaulted to 0 when absent) and `detailed_batches` — but
none of the raw numeric distributions; `detailed_batches` maps each
identifier to the last input record carrying it (last-write-wins). -/
theorem C2_amended (stats : Stats) (bs : List Batch) (detailed : List (String × Batch))
    (h : buildDetailed bs = Except.ok detailed) :
    stats_json stats bs = Except.ok (exportDocOf stats detailed) ∧
    keysOf (exportDocOf stats detailed) = exportKeys ∧
    List.lookup ("detailed_batches") (exportDocOf stats detailed) =
      some (JVal.jbatches detailed) ∧
    (∀ i : String, List.lookup i detailed =
      (bs.filter (fun b => b.batchId == some i)).getLast?) := by
  refine ⟨?_, rfl, ?_, ?_⟩
  · rw [stats_json, h]
  · rfl
  · intro i
    have h2 := lookup_buildDetailedFrom bs [] detailed h i
    rw [h2]
    cases hl : (bs.filter (fun b => b.batchId == some i)).getLast? with
    | some x => rfl
    | none => rfl

/-- Witness for the amended C2 on two records with a colliding identifier:
the mapping keeps the later record. -/
theorem C2_amended_witness :
    stats_json (analyze_batches [c2batchA, c2batchB]) [c2batchA, c2batchB] =
      Except.ok (exportDocOf (analyze_batches [c2batchA, c2batchB]) [("dup", c2batchB)]) ∧
    keysOf (exportDocOf (analyze_batches [c2batchA, c2batchB]) [("dup", c2batchB)]) =
      exportKeys ∧
    List.lookup ("dup") [("dup", c2batchB)] =
      ([c2batchA, c2batchB].filter (fun b => b.batchId == some "dup")).getLast? := by
  have h := C2_amended (analyze_batches [c2batchA, c2batchB]) [c2batchA, c2batchB]
    [("dup", c2batchB)] rfl
  exact ⟨h.1, h.2.1, h.2.2.2 ("dup")⟩

/-! ### C10 -/

/-- C10: if any record lacks an identifier, building the export raises a
`KeyError` that aborts the run — the error value propagates and no output
document is produced; there is no per-record recovery here. -/
theorem C10_missing_id (bs : List Batch) (h : ∃ b ∈ bs, b.batchId = none) :
    main_export bs = Except.error ("KeyError: _id") ∧
    ∀ doc : List (String × JVal), main_export bs ≠ Except.ok doc := by
  have he : buildDetailed bs = Except.error ("KeyError: _id") :=
    buildDetailedFrom_error bs [] h
  constructor
  · rw [main_export, stats_json, he]
  · intro doc hdoc
    rw [main_export, stats_json, he] at hdoc
    cases hdoc

/-- A batch without an `_id` key. -/
def c10batch : Batch :=
  ⟨none, some "NoId", none, none, none, none, RecipeField.absent,
    none, none, none, none⟩

/-- Witness for C10 on a one-record input lacking an identifier. -/
theorem C10_missing_id_witness :
    main_export [c10batch] = Except.error ("KeyError: _id") :=
  (C10_missing_id [c10batch] ⟨c10batch, List.mem_singleton.mpr rfl, rfl⟩).1
